import Mathlib

/-!
Verification of the read-through cache / write-back aggregation engine of
Guyuepp/Go-Clean-Architecture-Blog.

The Go source is shallowly embedded: each collaborator call (Redis, MySQL,
user lookup) is represented by its outcome, passed in explicitly; `nil`
errors become `some`/`Except.ok`, non-nil errors become `none`/`Except.error`.
Machine integers (`int64`, `uint32`, `uint64`) are modelled as `Int`/`Nat`
with explicit `% 2^w` where the Go code can overflow.  `time.Time` and
`time.Duration` are modelled as `Int` nanoseconds, matching Go's `Duration`
representation.
-/

namespace Blog

/-- `domain.User` (src/unnamed/part_008): only the identifier and name are
relevant to the embedded operations. -/
structure User where
  ID : Int
  Name : String
deriving DecidableEq, Repr

/-- `domain.Article` (src/domain/article.go): fields used by the embedded
operations; timestamps are `Int` nanoseconds. -/
structure Article where
  ID : Int
  Title : String
  User : User
  Views : Int
  Likes : Int
deriving DecidableEq, Repr

/-- `domain.UserLike` (src/domain/user_like.go): a like record keyed by
(article ID, user ID). -/
structure UserLike where
  ArticleID : Int
  UserID : Int
deriving DecidableEq, Repr

/-- `domain.LikeStateChanges` (src/domain/user_like.go). -/
structure LikeStateChanges where
  ToAdd : List UserLike
  ToRemove : List UserLike
deriving DecidableEq, Repr

/-- The domain error values distinguished by the code
(src/domain, `ErrNotFound`, `ErrConflict`, `ErrCacheMiss`, ...). -/
inductive DomainErr where
  | notFound
  | conflict
  | cacheMiss
  | badParamInput
deriving DecidableEq, Repr

/-! ## Time model: Go `time.Duration` as `Int` nanoseconds -/

def nanosecond : Int := 1

def second : Int := 1000000000 * nanosecond

def minute : Int := 60 * second

def hour : Int := 60 * minute

/-! ## Logical-expiry wrapper (src/internal/repository/cache/types.go) -/

/-- `cache.DataWithLogicalExpire`: payload plus logical expiry and creation
timestamps. -/
structure DataWithLogicalExpire (α : Type) where
  Data : α
  ExpireAt : Int
  CreatedAt : Int
deriving DecidableEq, Repr

/-- `cache.NewDataWithLogicalExpire`: `ExpireAt = now + ttl`,
`CreatedAt = now`; `time.Now()` is passed explicitly as `now`. -/
def NewDataWithLogicalExpire {α : Type} (data : α) (now ttl : Int) :
    DataWithLogicalExpire α :=
  { Data := data, ExpireAt := now + ttl, CreatedAt := now }

/-- `(*DataWithLogicalExpire).IsLogicalExpired`: `time.Now().After(ExpireAt)`. -/
def IsLogicalExpired {α : Type} (d : DataWithLogicalExpire α) (now : Int) : Bool :=
  d.ExpireAt < now

/-- Physical deadline of every logical-expiry write in
src/internal/repository/redis/article.go: the code always passes a fixed
`24*time.Hour` physical TTL to `client.Set`. -/
def physicalExpireAt (now : Int) : Int := now + 24 * hour

/-- The logical TTLs the repository layer actually passes to the
logical-expiry write operations (src/internal/repository/article.go:
30s for the home page, 10min for single articles, 1h for the history rank). -/
def repoLogicalTTLs : List Int := [30 * second, 10 * minute, 1 * hour]

/-! ## Existence-filter guard of the usecase layer (src/unnamed/part_004) -/

/-- `service.mustExists` (src/unnamed/part_004 lines 247-254): the outcome of
`bloomRepo.Exists` is `Except.error e` for a non-nil error and `Except.ok b`
for a nil error with result `b`.  The guard returns `ErrNotFound` exactly
when `err == nil && !exists`; otherwise it returns nil (`none`). -/
def mustExists (bloom : Except String Bool) : Option DomainErr :=
  match bloom with
  | .ok ex => if !ex then some .notFound else none
  | .error _ => none

/-- `service.GetByID` viewed at the guard: the body after the guard is an
opaque continuation `rest` (the repository call). -/
def ucGetByID (bloom : Except String Bool) (rest : Except DomainErr Article) :
    Except DomainErr Article :=
  match mustExists bloom with
  | some e => .error e
  | none => rest

/-- `service.Update` viewed at the guard. -/
def ucUpdate (bloom : Except String Bool) (rest : Except DomainErr Unit) :
    Except DomainErr Unit :=
  match mustExists bloom with
  | some e => .error e
  | none => rest

/-- `service.Delete` viewed at the guard. -/
def ucDelete (bloom : Except String Bool) (rest : Except DomainErr Unit) :
    Except DomainErr Unit :=
  match mustExists bloom with
  | some e => .error e
  | none => rest

/-- `service.AddLikeRecord` viewed at the guard. -/
def ucAddLikeRecord (bloom : Except String Bool) (rest : Except DomainErr Bool) :
    Except DomainErr Bool :=
  match mustExists bloom with
  | some e => .error e
  | none => rest

/-- `service.RemoveLikeRecord` viewed at the guard. -/
def ucRemoveLikeRecord (bloom : Except String Bool) (rest : Except DomainErr Bool) :
    Except DomainErr Bool :=
  match mustExists bloom with
  | some e => .error e
  | none => rest

/-! ## Coordinating repository: GetByID (src/internal/repository/article.go) -/

/-- Outcomes of the collaborator calls made by `articleRepository.GetByID`,
passed in explicitly.  `cacheGet` is the outcome of
`cache.GetArticleWithLogicalExpire` (`some (article, expired)` iff the entry
was present and deserialized, i.e. `err == nil`); `incrViewsDelta` is the
value returned by `cache.IncrViews`; `likeCount` is the outcome of
`cache.GetLikeCount` (`some` iff `err == nil`); `dbGet` and `userGet` are the
outcomes of `db.GetByID` and `userRepo.GetByID` on the miss path. -/
structure GetByIDEnv where
  cacheGet : Option (Article × Bool)
  incrViewsDelta : Int
  likeCount : Option Int
  dbGet : Option Article
  userGet : Option User
deriving DecidableEq, Repr

/-- The observable outcome of one `GetByID` call: the returned value (`none`
means a non-nil error), whether a synchronous durable-store read was issued,
and whether an asynchronous cache rebuild was fired. -/
structure GetByIDOut where
  result : Option Article
  dbRead : Bool
  rebuildFired : Bool
deriving DecidableEq, Repr

/-- `articleRepository.GetByID` (src/internal/repository/article.go lines
72-130).  On a cache hit (`err == nil`) the expired flag fires the
asynchronous rebuild goroutine, the buffered view delta is added, and a
successfully read cached like count replaces the payload's like count; the
stale-or-fresh payload is returned with no durable read.  On a miss the
single-flight body loads from the durable store, hydrates the author, and
the view delta is added to the result. -/
def repoGetByID (env : GetByIDEnv) : GetByIDOut :=
  match env.cacheGet with
  | some (article, expired) =>
    let a1 := { article with Views := article.Views + env.incrViewsDelta }
    let a2 := match env.likeCount with
      | some l => { a1 with Likes := l }
      | none => a1
    { result := some a2, dbRead := false, rebuildFired := expired }
  | none =>
    match env.dbGet with
    | none => { result := none, dbRead := true, rebuildFired := false }
    | some art =>
      match env.userGet with
      | none => { result := none, dbRead := true, rebuildFired := false }
      | some u =>
        let art1 := { art with User := u }
        { result := some { art1 with Views := art1.Views + env.incrViewsDelta },
          dbRead := true, rebuildFired := false }

/-! ## Single-flight key derivation (src/internal/repository/article.go)

The miss path uses `"article:" + string(rune(id))` (line 95) and the
asynchronous rebuild uses `"rebuild:" + string(rune(id))` (line 334), both
in the one `rebuildGroup`; the home rebuild uses `"home"` and the rank group
uses `"daily"` and `"history"`.  Go strings are modelled as their code-point
sequences (`List Nat`), which determines them up to the injective UTF-8
encoding. -/

/-- The Go conversion `rune(id)` for `id int64`: truncation to a 32-bit
two's-complement value. -/
def runeOfInt64 (id : Int) : Int :=
  (id + 2 ^ 31) % 2 ^ 32 - 2 ^ 31

/-- A valid Unicode scalar value: in `[0, 0x10FFFF]` and not a surrogate. -/
def isValidScalar (r : Int) : Bool :=
  (0 ≤ r ∧ r ≤ 0xD7FF) ∨ (0xE000 ≤ r ∧ r ≤ 0x10FFFF)

/-- The Go conversion `string(r)` of a rune, as the single code point of the
resulting string: an invalid scalar value becomes U+FFFD, the replacement
character. -/
def goRuneScalar (id : Int) : Nat :=
  let r := runeOfInt64 id
  if isValidScalar r then r.toNat else 0xFFFD

/-- A Go string literal as its code-point sequence. -/
def goStr (s : String) : List Nat := s.data.map Char.toNat

/-- The single-flight key of the miss path of `GetByID`:
`"article:" + string(rune(id))`. -/
def articleFlightKey (id : Int) : List Nat :=
  goStr "article:" ++ [goRuneScalar id]

/-- The single-flight key of `rebuildArticleCache`:
`"rebuild:" + string(rune(id))`. -/
def rebuildFlightKey (id : Int) : List Nat :=
  goStr "rebuild:" ++ [goRuneScalar id]

/-! ## Rank hydration (src/internal/repository/article.go lines 474-512) -/

/-- The `articleMap` built by `fillRankArticles`: a Go map filled by
iterating the hydrated list, so the last article with a given ID wins. -/
def buildArticleMap (arts : List Article) (id : Int) : Option Article :=
  arts.reverse.find? (fun a => a.ID = id)

/-- `articleRepository.fillRankArticles`: `hydrated` is the outcome of the
`GetByIDs` batch lookup (`Except.error` for a non-nil error).  On a lookup
error the bare rank entries are returned unchanged; otherwise each rank
entry is replaced by the hydrated article with the rank entry's like count,
or kept as the bare entry when its ID was not hydrated. -/
def fillRankArticles (hydrated : Except Unit (List Article))
    (rankArticles : List Article) : List Article :=
  if rankArticles.isEmpty then rankArticles
  else
    match hydrated with
    | .error _ => rankArticles
    | .ok arts =>
      rankArticles.map (fun rankArt =>
        match buildArticleMap arts rankArt.ID with
        | some fullArt => { fullArt with Likes := rankArt.Likes }
        | none => rankArt)

/-! ## Like-record cache scripts (src/internal/repository/redis/article.go)

The Lua scripts of `AddLikeRecord` / `DecrLikeRecord` and the plain
`SetUserLikedArticles` are embedded as a state machine over the keys they
touch for one user: the user's liked-set (`none` models an absent Redis
key), the hourly raw popularity sorted-sets, and the per-article like
counters, together with their TTLs.  Sorted sets and counters are
association lists; `ZINCRBY` creates an absent member. -/

/-- Redis `ZINCRBY` / `INCR`-style update of an association table: add `d`
to the value at `k`, creating the entry with value `d` when absent. -/
def assocIncr {κ : Type} [DecidableEq κ] (tab : List (κ × Int)) (k : κ) (d : Int) :
    List (κ × Int) :=
  if tab.any (fun e => e.fst = k) then
    tab.map (fun e => if e.fst = k then (e.fst, e.snd + d) else e)
  else tab ++ [(k, d)]

/-- Redis `EXPIRE`-style update of an association table: set the value at
`k`, creating the entry when absent. -/
def assocSet {κ : Type} [DecidableEq κ] (tab : List (κ × Int)) (k : κ) (v : Int) :
    List (κ × Int) :=
  if tab.any (fun e => e.fst = k) then
    tab.map (fun e => if e.fst = k then (e.fst, v) else e)
  else tab ++ [(k, v)]

/-- Membership of a key in an association table (Redis `EXISTS`). -/
def assocHas {κ : Type} [DecidableEq κ] (tab : List (κ × Int)) (k : κ) : Bool :=
  tab.any (fun e => e.fst = k)

/-- The cache state touched by the like scripts, for one user: the liked-set
key `article:user:<uid>:likedArticles` with its TTL, the hourly raw rank
sorted-sets `article:hot:daily:raw:<hour>` keyed by (hour bucket, article)
with per-bucket TTLs, and the like counters `article:likes:<aid>` with their
TTLs. -/
structure LikeCacheState where
  likedSet : Option (List Int)
  likedTTL : Int
  hourScores : List ((String × Int) × Int)
  hourTTLs : List (String × Int)
  likeCounts : List (Int × Int)
  likeCountTTLs : List (Int × Int)
deriving DecidableEq, Repr

/-- `articleCache.AddLikeRecord` (src/internal/repository/redis/article.go
lines 255-299): the Lua script returns -1 (`ErrCacheMiss`, modelled
`Except.error ()`) when the liked-set key is absent; 0 (`changed = false`,
no write at all) when the article is already a member; otherwise it adds the
member, refreshes the set TTL to 1800s, increments the current hourly score
by 1 with a 26h TTL, bumps the like counter only if that counter key already
exists, and returns 1 (`changed = true`).  `hourBucket` is the formatted
current hour `time.Now().Format("2006010215")`. -/
def addLikeRecord (hourBucket : String) (aid : Int) (st : LikeCacheState) :
    Except Unit Bool × LikeCacheState :=
  match st.likedSet with
  | none => (.error (), st)
  | some s =>
    if aid ∈ s then (.ok false, st)
    else
      (.ok true,
        { likedSet := some (s ++ [aid]),
          likedTTL := 1800,
          hourScores := assocIncr st.hourScores (hourBucket, aid) 1,
          hourTTLs := assocSet st.hourTTLs hourBucket (60 * 60 * 26),
          likeCounts :=
            if assocHas st.likeCounts aid then assocIncr st.likeCounts aid 1
            else st.likeCounts,
          likeCountTTLs :=
            if assocHas st.likeCounts aid then
              assocSet st.likeCountTTLs aid (7 * 24 * 60 * 60)
            else st.likeCountTTLs })

/-- `articleCache.DecrLikeRecord` (src/internal/repository/redis/article.go
lines 301-345): symmetric to `addLikeRecord` with `SREM` and score delta -1;
removing the last member deletes the Redis set key. -/
def decrLikeRecord (hourBucket : String) (aid : Int) (st : LikeCacheState) :
    Except Unit Bool × LikeCacheState :=
  match st.likedSet with
  | none => (.error (), st)
  | some s =>
    if aid ∈ s then
      let s2 := s.erase aid
      (.ok true,
        { likedSet := if s2.isEmpty then none else some s2,
          likedTTL := 1800,
          hourScores := assocIncr st.hourScores (hourBucket, aid) (-1),
          hourTTLs := assocSet st.hourTTLs hourBucket (60 * 60 * 26),
          likeCounts :=
            if assocHas st.likeCounts aid then assocIncr st.likeCounts aid (-1)
            else st.likeCounts,
          likeCountTTLs :=
            if assocHas st.likeCounts aid then
              assocSet st.likeCountTTLs aid (7 * 24 * 60 * 60)
            else st.likeCountTTLs })
    else (.ok false, st)

/-- `articleCache.SetUserLikedArticles` (src/internal/repository/redis/article.go
lines 390-400): an empty ID list is replaced by the sentinel `[-1]`, then the
IDs are `SADD`-ed into the user's liked-set (creating the key when absent,
skipping members already present). -/
def setUserLikedArticles (st : LikeCacheState) (aids : List Int) : LikeCacheState :=
  let aids' := if aids.isEmpty then [-1] else aids
  let prev := match st.likedSet with
    | some s => s
    | none => []
  let merged := aids'.foldl (fun s a => if a ∈ s then s else s ++ [a]) prev
  { st with likedSet := some merged }

/-! ## Existence filter (src/internal/repository/redis/bloom.go)

`getOffset` hashes the decimal string of the ID with CRC-32 (IEEE) and
FNV-64 (FNV-1), plus a third offset mixing the first two with the salt
0xABC, each reduced modulo the bit-array size.  The Redis bit array is
modelled as `Nat → Bool`; `SETBIT ... 1` only ever sets bits. -/

/-- Decimal digits of a natural number, most significant first
(`natDecDigits 0 = [0]`). -/
def natDecDigits (n : Nat) : List Nat :=
  if _h : n < 10 then [n]
  else natDecDigits (n / 10) ++ [n % 10]
decreasing_by
  exact Nat.div_lt_self (by omega) (by omega)

/-- The bytes of `fmt.Appendf(nil, "%d", id)`: ASCII decimal with a leading
minus sign for negative values. -/
def idBytes (id : Int) : List Nat :=
  if id < 0 then 45 :: (natDecDigits id.natAbs).map (fun d => d + 48)
  else (natDecDigits id.toNat).map (fun d => d + 48)

/-- One bit-round of the reflected CRC-32 with the IEEE polynomial. -/
def crc32Round (c : Nat) : Nat :=
  if c % 2 = 1 then (c / 2) ^^^ 0xEDB88320 else c / 2

/-- CRC-32 (IEEE) update by one byte: xor the byte in, then eight rounds. -/
def crc32Byte (c b : Nat) : Nat := crc32Round^[8] (c ^^^ b)

/-- `crc32.ChecksumIEEE` over a byte sequence. -/
def crc32 (bs : List Nat) : Nat :=
  (bs.foldl crc32Byte 0xFFFFFFFF) ^^^ 0xFFFFFFFF

/-- FNV-1 64-bit update by one byte: multiply by the prime modulo 2^64,
then xor the byte in (`hash/fnv.New64`). -/
def fnv64Byte (h b : Nat) : Nat := ((h * 1099511628211) % 2 ^ 64) ^^^ b

/-- `fnv.New64().Sum64` over a byte sequence. -/
def fnv64 (bs : List Nat) : Nat :=
  bs.foldl fnv64Byte 14695981039346656037

/-- `redisBloomRepo.getOffset`: the k = 3 deterministic bit offsets of an ID
for a bit-array of `size` bits. -/
def getOffset (size : Nat) (id : Int) : List Nat :=
  let data := idBytes id
  let o0 := crc32 data % size
  let o1 := fnv64 data % size
  [o0, o1, (o0 + o1 + 0xABC) % size]

/-- Set the given bit offsets in the bit array (pipelined `SETBIT ... 1`). -/
def setBits (offs : List Nat) (s : Nat → Bool) : Nat → Bool :=
  fun n => if n ∈ offs then true else s n

/-- `redisBloomRepo.Add`: set the three offsets of the ID. -/
def bloomAdd (size : Nat) (id : Int) (s : Nat → Bool) : Nat → Bool :=
  setBits (getOffset size id) s

/-- `redisBloomRepo.BulkAdd`: set the offsets of every ID in the batch. -/
def bloomBulkAdd (size : Nat) (ids : List Int) (s : Nat → Bool) : Nat → Bool :=
  ids.foldl (fun s id => setBits (getOffset size id) s) s

/-- `redisBloomRepo.Exists` on its error-free path: all three offset bits
must be 1. -/
def bloomExistsCheck (size : Nat) (id : Int) (s : Nat → Bool) : Bool :=
  (getOffset size id).all (fun o => s o)

/-- An insertion operation against the filter. -/
inductive BloomOp where
  | add (id : Int)
  | bulkAdd (ids : List Int)

/-- The IDs inserted by one operation. -/
def bloomOpIDs : BloomOp → List Int
  | .add id => [id]
  | .bulkAdd ids => ids

/-- All IDs inserted by a sequence of operations. -/
def bloomAddedIDs : List BloomOp → List Int
  | [] => []
  | op :: rest => bloomOpIDs op ++ bloomAddedIDs rest

/-- Run a sequence of insertions against a bit-array state. -/
def bloomRun (size : Nat) (ops : List BloomOp) (s : Nat → Bool) : Nat → Bool :=
  ops.foldl (fun s op =>
    match op with
    | .add id => bloomAdd size id s
    | .bulkAdd ids => bloomBulkAdd size ids s) s

/-! ## Durable like reconciliation (src/internal/repository/mysql/article.go)

`ApplyLikeChanges` runs in one transaction: filter orphan adds against the
articles table, delete the removed like rows, upsert the filtered added
rows, then for every article ID touched by the batch recount its like rows
and write the count back to the article row. -/

/-- A durable `articles` row: the columns the transaction touches. -/
structure ArticleRow where
  ID : Int
  Likes : Int
deriving DecidableEq, Repr

/-- The durable store: the `articles` table and the `user_likes` table. -/
structure ArticleDB where
  articles : List ArticleRow
  userLikes : List UserLike
deriving DecidableEq, Repr

/-- The distinct article IDs of a row list, first occurrence first — the
seen-map guarded append loop and the `uniqueArticleIDs` set build of
`ApplyLikeChanges`. -/
def collectArticleIDs (rows : List UserLike) : List Int :=
  rows.foldl (fun acc row =>
    if row.ArticleID ∈ acc then acc else acc ++ [row.ArticleID]) []

/-- The number of durable like rows of one article
(`COUNT(*) WHERE article_id = aid`). -/
def countLikeRows (tab : List UserLike) (aid : Int) : Nat :=
  (tab.filter (fun r => r.ArticleID = aid)).length

/-- The article IDs appearing in a like-change batch (in `ToAdd` or
`ToRemove`); `uniqueArticleIDs` is their set. -/
def batchArticleIDs (changes : LikeStateChanges) : List Int :=
  (changes.ToRemove ++ changes.ToAdd).map (fun r => r.ArticleID)

/-- One iteration of the recount loop of `ApplyLikeChanges`: count the like
rows of `aid` in `tab` and write the count into the matching article row
(`UPDATE articles SET likes = realCount WHERE id = aid`). -/
def recountStep (tab : List UserLike) (arts : List ArticleRow) (aid : Int) :
    List ArticleRow :=
  arts.map (fun a =>
    if a.ID = aid then { a with Likes := (countLikeRows tab aid : Int) } else a)

/-- `articleRepository.ApplyLikeChanges`
(src/internal/repository/mysql/article.go lines 212-290).  The `toRemove`
slice is built with `make(len)` followed by `append`, so it carries
`len(ToRemove)` zero-valued rows in front of the real ones — modelled
faithfully.  The upsert (`OnConflict` with `UpdateAll`) inserts a row unless
the (article, user) pair is already present. -/
def ApplyLikeChanges (db : ArticleDB) (changes : LikeStateChanges) : ArticleDB :=
  let toAddIDs := collectArticleIDs changes.ToAdd
  let validIDs := toAddIDs.filter (fun aid => db.articles.any (fun a => a.ID = aid))
  let filteredAdd := changes.ToAdd.filter (fun row => row.ArticleID ∈ validIDs)
  let toRemove := List.replicate changes.ToRemove.length (⟨0, 0⟩ : UserLike)
    ++ changes.ToRemove
  let afterRemove := db.userLikes.filter (fun r => r ∉ toRemove)
  let afterAdd := filteredAdd.foldl
    (fun tab row => if row ∈ tab then tab else tab ++ [row]) afterRemove
  let uniqueArticleIDs := collectArticleIDs (changes.ToRemove ++ changes.ToAdd)
  let articles2 := uniqueArticleIDs.foldl (recountStep afterAdd) db.articles
  { articles := articles2, userLikes := afterAdd }

end Blog

namespace Blog

/-- C5: For every guarded usecase operation (GetByID, Update, Delete,
AddLikeRecord, RemoveLikeRecord), an error from the existence filter's
`Exists` call never fails the request: the not-found error is produced by
the guard only when `Exists` returned `false` with a nil error; on an
`Exists` error the operation proceeds to its body (fail open). -/
theorem mustExists_fail_open :
    ∀ (e : String),
      mustExists (.error e) = none ∧
      (∀ b : Bool, mustExists (.ok b) = if b then none else some .notFound) ∧
      (∀ rest : Except DomainErr Article,
        ucGetByID (.error e) rest = rest ∧
        ucGetByID (.ok true) rest = rest ∧
        ucGetByID (.ok false) rest = .error .notFound) ∧
      (∀ rest : Except DomainErr Unit,
        ucUpdate (.error e) rest = rest ∧
        ucUpdate (.ok true) rest = rest ∧
        ucUpdate (.ok false) rest = .error .notFound ∧
        ucDelete (.error e) rest = rest ∧
        ucDelete (.ok true) rest = rest ∧
        ucDelete (.ok false) rest = .error .notFound) ∧
      (∀ rest : Except DomainErr Bool,
        ucAddLikeRecord (.error e) rest = rest ∧
        ucAddLikeRecord (.ok true) rest = rest ∧
        ucAddLikeRecord (.ok false) rest = .error .notFound ∧
        ucRemoveLikeRecord (.error e) rest = rest ∧
        ucRemoveLikeRecord (.ok true) rest = rest ∧
        ucRemoveLikeRecord (.ok false) rest = .error .notFound) := by
  intro e
  refine ⟨rfl, ?_, ?_, ?_, ?_⟩
  · intro b; cases b <;> rfl
  · intro rest; exact ⟨rfl, rfl, rfl⟩
  · intro rest; exact ⟨rfl, rfl, rfl, rfl, rfl, rfl⟩
  · intro rest; exact ⟨rfl, rfl, rfl, rfl, rfl, rfl⟩

/-- C7 counterexample: the claim quantifies over "every ttl the interface
admits", but the logical-expiry write operations always use a fixed 24-hour
physical TTL; a logical ttl of 25 hours puts the logical expiry strictly
after the physical expiry of the storage slot. -/
theorem logical_expiry_exceeds_physical :
    ¬ (NewDataWithLogicalExpire () 0 (25 * hour)).ExpireAt ≤ physicalExpireAt 0 := by
  decide

/-- C7 amended: for every logical ttl at most the fixed 24-hour physical TTL,
the entry's logical expiry (`now + ttl`) is before or equal to the physical
expiry of its storage slot; every logical ttl actually passed by the
repository layer (30s, 10min, 1h) satisfies that bound. -/
theorem logical_expiry_within_physical :
    (∀ (α : Type) (data : α) (now ttl : Int), ttl ≤ 24 * hour →
      (NewDataWithLogicalExpire data now ttl).ExpireAt ≤ physicalExpireAt now) ∧
    (∀ t ∈ repoLogicalTTLs, t ≤ 24 * hour) := by
  constructor
  · intro α data now ttl h
    simp only [NewDataWithLogicalExpire, physicalExpireAt]
    omega
  · decide

/-- C7 amended, witness: the 30-second home-page ttl satisfies the bound and
yields a logical expiry within the physical deadline. -/
theorem logical_expiry_within_physical_witness :
    (NewDataWithLogicalExpire () 0 (30 * second)).ExpireAt ≤ physicalExpireAt 0 :=
  logical_expiry_within_physical.1 Unit () 0 (30 * second) (by decide)

/-- C2: For every article ID whose cache entry is present and deserializes
successfully (`cacheGet = some (a, expired)`), `GetByID` returns that cached
payload with the buffered view delta added and a successfully read cached
like count merged in, with no error and no synchronous durable-store read;
the asynchronous rebuild is fired exactly when the entry is logically
expired. -/
theorem getByID_cached_hit (env : GetByIDEnv) (a : Article) (expired : Bool)
    (h : env.cacheGet = some (a, expired)) :
    repoGetByID env =
      { result := some { a with
          Views := a.Views + env.incrViewsDelta,
          Likes := match env.likeCount with
            | some l => l
            | none => a.Likes },
        dbRead := false,
        rebuildFired := expired } := by
  cases env with
  | mk cacheGet incrViewsDelta likeCount dbGet userGet =>
    cases h
    cases likeCount <;> rfl

/-- C2 witness: a concrete logically-expired cached hit with view delta 3 and
a fresher cached like count 9. -/
theorem getByID_cached_hit_witness :
    ({ cacheGet := some (⟨7, "t", ⟨1, "u"⟩, 10, 4⟩, true), incrViewsDelta := 3,
       likeCount := some 9, dbGet := none, userGet := none } : GetByIDEnv).cacheGet
      = some (⟨7, "t", ⟨1, "u"⟩, 10, 4⟩, true) ∧
    repoGetByID { cacheGet := some (⟨7, "t", ⟨1, "u"⟩, 10, 4⟩, true),
                  incrViewsDelta := 3, likeCount := some 9,
                  dbGet := none, userGet := none } =
      { result := some ⟨7, "t", ⟨1, "u"⟩, 13, 9⟩, dbRead := false,
        rebuildFired := true } :=
  ⟨rfl, getByID_cached_hit _ ⟨7, "t", ⟨1, "u"⟩, 10, 4⟩ true rfl⟩

/-- Membership in the deduplicated ID list is membership in the projected
row list. -/
theorem mem_collectArticleIDs {rows : List UserLike} {x : Int} :
    x ∈ collectArticleIDs rows ↔ x ∈ rows.map (fun r => r.ArticleID) := by
  have aux : ∀ (rs : List UserLike) (acc : List Int),
      x ∈ rs.foldl (fun acc row =>
        if row.ArticleID ∈ acc then acc else acc ++ [row.ArticleID]) acc ↔
      x ∈ acc ∨ x ∈ rs.map (fun r => r.ArticleID) := by
    intro rs
    induction rs with
    | nil => intro acc; simp
    | cons r rs ih =>
      intro acc
      rw [List.foldl_cons, ih]
      by_cases hr : r.ArticleID ∈ acc
      · simp only [hr, if_pos, List.map_cons, List.mem_cons]
        constructor
        · rintro (h | h)
          · exact Or.inl h
          · exact Or.inr (Or.inr h)
        · rintro (h | h | h)
          · exact Or.inl h
          · exact Or.inl (h ▸ hr)
          · exact Or.inr h
      · simp only [hr, if_neg, not_false_eq_true, List.mem_append,
          List.mem_singleton, List.map_cons, List.mem_cons]
        tauto
  rw [collectArticleIDs, aux]
  simp

/-- The recount write-back for `aid` is preserved by further recount
iterations (they only touch rows of other IDs or rewrite the same count). -/
theorem recountStep_preserves (tab : List UserLike) (aid : Int) :
    ∀ (ids : List Int) (arts : List ArticleRow),
      (∀ a ∈ arts, a.ID = aid → a.Likes = (countLikeRows tab aid : Int)) →
      ∀ a ∈ ids.foldl (recountStep tab) arts, a.ID = aid →
        a.Likes = (countLikeRows tab aid : Int) := by
  intro ids
  induction ids with
  | nil => intro arts h; exact h
  | cons i is ih =>
    intro arts h
    rw [List.foldl_cons]
    apply ih
    intro a' ha' hid'
    obtain ⟨a, ha, rfl⟩ := List.mem_map.mp ha'
    by_cases hi : a.ID = i
    · simp only [hi, if_pos] at hid' ⊢
      have : i = aid := hid'
      rw [this]
    · simp only [hi, if_neg, not_false_eq_true] at hid' ⊢
      exact h a ha hid'

/-- After the recount loop processes `aid`, every article row with that ID
carries the recounted number of like rows. -/
theorem recount_establish (tab : List UserLike) (aid : Int) :
    ∀ (ids : List Int), aid ∈ ids → ∀ (arts : List ArticleRow),
      ∀ a ∈ ids.foldl (recountStep tab) arts, a.ID = aid →
        a.Likes = (countLikeRows tab aid : Int) := by
  intro ids
  induction ids with
  | nil => intro h; cases h
  | cons i is ih =>
    intro hmem arts
    rw [List.foldl_cons]
    by_cases hi : aid = i
    · subst hi
      apply recountStep_preserves
      intro a' ha' hid'
      obtain ⟨a, ha, rfl⟩ := List.mem_map.mp ha'
      by_cases hai : a.ID = aid
      · simp only [hai, if_pos]
      · simp only [hai, if_neg, not_false_eq_true] at hid'
    · have : aid ∈ is := by
        rcases List.mem_cons.mp hmem with h | h
        · exact absurd h hi
        · exact h
      exact ih this (recountStep tab arts i)

/-- C4: When `ApplyLikeChanges` commits a batch, then for every article ID
appearing in the batch (in `ToAdd` or `ToRemove`), every durable article row
with that ID carries, after the transaction, exactly the number of durable
like rows of that article: the count is recomputed from the `user_likes`
table inside the same transaction, not derived from the buffered deltas. -/
theorem applyLikeChanges_recount (db : ArticleDB) (changes : LikeStateChanges)
    (a : ArticleRow) (aid : Int)
    (hbatch : aid ∈ batchArticleIDs changes)
    (hrow : a ∈ (ApplyLikeChanges db changes).articles)
    (hid : a.ID = aid) :
    a.Likes = (countLikeRows (ApplyLikeChanges db changes).userLikes aid : Int) := by
  have h1 : aid ∈ collectArticleIDs (changes.ToRemove ++ changes.ToAdd) := by
    rw [mem_collectArticleIDs]
    simpa [batchArticleIDs] using hbatch
  simp only [ApplyLikeChanges] at hrow ⊢
  exact recount_establish _ aid _ h1 db.articles a hrow hid

/-- C4 witness: a batch that adds a like for article 5 and removes one for
article 6; after the transaction the row of article 5 carries like count 1,
which is the number of its like rows. -/
theorem applyLikeChanges_recount_witness :
    (5 : Int) ∈ batchArticleIDs ⟨[⟨5, 1⟩], [⟨6, 2⟩]⟩ ∧
    (⟨5, 1⟩ : ArticleRow) ∈
      (ApplyLikeChanges ⟨[⟨5, 9⟩, ⟨6, 9⟩], [⟨6, 2⟩]⟩ ⟨[⟨5, 1⟩], [⟨6, 2⟩]⟩).articles ∧
    (⟨5, 1⟩ : ArticleRow).ID = 5 ∧
    (⟨5, 1⟩ : ArticleRow).Likes =
      (countLikeRows
        (ApplyLikeChanges ⟨[⟨5, 9⟩, ⟨6, 9⟩], [⟨6, 2⟩]⟩ ⟨[⟨5, 1⟩], [⟨6, 2⟩]⟩).userLikes
        5 : Int) :=
  ⟨by decide, by decide, by decide,
    applyLikeChanges_recount ⟨[⟨5, 9⟩, ⟨6, 9⟩], [⟨6, 2⟩]⟩ ⟨[⟨5, 1⟩], [⟨6, 2⟩]⟩
      ⟨5, 1⟩ 5 (by decide) (by decide) (by decide)⟩

/-- Bits already set stay set under `setBits`. -/
theorem setBits_mono {offs : List Nat} {s : Nat → Bool} {n : Nat}
    (h : s n = true) : setBits offs s n = true := by
  simp only [setBits]
  split <;> simp [h]

/-- `setBits` sets every listed offset. -/
theorem setBits_mem {offs : List Nat} {s : Nat → Bool} {o : Nat}
    (h : o ∈ offs) : setBits offs s o = true := by
  simp [setBits, h]

/-- Bits already set stay set under `BulkAdd`. -/
theorem bloomBulkAdd_mono {size : Nat} {ids : List Int} {s : Nat → Bool} {n : Nat}
    (h : s n = true) : bloomBulkAdd size ids s n = true := by
  induction ids generalizing s with
  | nil => exact h
  | cons x xs ih =>
    simp only [bloomBulkAdd, List.foldl_cons]
    exact ih (setBits_mono h)

/-- Bits already set stay set under any sequence of insertions. -/
theorem bloomRun_mono {size : Nat} {ops : List BloomOp} {s : Nat → Bool} {n : Nat}
    (h : s n = true) : bloomRun size ops s n = true := by
  induction ops generalizing s with
  | nil => exact h
  | cons op rest ih =>
    simp only [bloomRun, List.foldl_cons]
    cases op with
    | add id => exact ih (setBits_mono h)
    | bulkAdd ids => exact ih (bloomBulkAdd_mono h)

/-- `BulkAdd` sets every offset bit of every ID in the batch. -/
theorem bloomBulkAdd_sets {size : Nat} {ids : List Int} {s : Nat → Bool}
    {id : Int} {o : Nat} (hid : id ∈ ids) (ho : o ∈ getOffset size id) :
    bloomBulkAdd size ids s o = true := by
  induction ids generalizing s with
  | nil => cases hid
  | cons x xs ih =>
    simp only [bloomBulkAdd, List.foldl_cons]
    rcases List.mem_cons.mp hid with hx | hx
    · subst hx
      exact bloomBulkAdd_mono (setBits_mem ho)
    · exact ih hx

/-- C3: For every ID inserted into the existence filter via `Add` or
`BulkAdd`, every subsequent error-free `Exists` call for that ID returns
true, regardless of which and how many other IDs have been added: the k = 3
bit offsets are a deterministic function of the ID and set bits are never
cleared. -/
theorem bloom_no_false_negative (size : Nat) (ops : List BloomOp)
    (s0 : Nat → Bool) (id : Int) (_hsize : 0 < size)
    (hid : id ∈ bloomAddedIDs ops) :
    bloomExistsCheck size id (bloomRun size ops s0) = true := by
  induction ops generalizing s0 with
  | nil => cases hid
  | cons op rest ih =>
    simp only [bloomAddedIDs, List.mem_append] at hid
    simp only [bloomRun, List.foldl_cons]
    rcases hid with hop | hrest
    · have hset : ∀ o ∈ getOffset size id,
          (match op with
            | .add i => bloomAdd size i s0
            | .bulkAdd ids => bloomBulkAdd size ids s0) o = true := by
        intro o ho
        cases op with
        | add i =>
          have : id = i := by simpa [bloomOpIDs] using hop
          subst this
          exact setBits_mem ho
        | bulkAdd ids =>
          have : id ∈ ids := by simpa [bloomOpIDs] using hop
          exact bloomBulkAdd_sets this ho
      simp only [bloomExistsCheck, List.all_eq_true]
      intro o ho
      exact bloomRun_mono (hset o ho)
    · exact ih _ hrest

/-- C3 witness: ID 42 added to a 1000-bit filter over an empty bit array is
subsequently reported as present. -/
theorem bloom_no_false_negative_witness :
    0 < 1000 ∧ (42 : Int) ∈ bloomAddedIDs [.add 42, .bulkAdd [7, 9]] ∧
    bloomExistsCheck 1000 42
      (bloomRun 1000 [.add 42, .bulkAdd [7, 9]] (fun _ => false)) = true :=
  ⟨by decide, by decide,
    bloom_no_false_negative 1000 [.add 42, .bulkAdd [7, 9]] (fun _ => false) 42
      (by decide) (by decide)⟩

/-- C8 counterexample: the claim quantifies over every cache state with a
resident liked-set, but when the liked-set already contains the article the
first `AddLikeRecord` call returns `changed = false`, not `changed = true`. -/
theorem addLikeRecord_already_member :
    (⟨some [5], 1800, [], [], [], []⟩ : LikeCacheState).likedSet = some [5] ∧
    (addLikeRecord "2026010100" 5 ⟨some [5], 1800, [], [], [], []⟩).fst
      = Except.ok false ∧
    (Except.ok false : Except Unit Bool) ≠ Except.ok true := by
  refine ⟨rfl, rfl, by simp⟩

/-- C8 amended: starting from any cache state in which the user's liked-set
is resident and does not yet contain the article, calling `AddLikeRecord`
twice for the same (article, user) pair with no intervening remove returns
`changed = true` then `changed = false`, and the second call leaves the
cache state unchanged: no second set insertion, no second hourly
popularity-score increment, and no second like-counter bump. -/
theorem addLikeRecord_idempotent :
    ∀ (st : LikeCacheState) (s : List Int) (h1 h2 : String) (aid : Int),
      st.likedSet = some s → aid ∉ s →
      (addLikeRecord h1 aid st).fst = .ok true ∧
      (addLikeRecord h2 aid (addLikeRecord h1 aid st).snd).fst = .ok false ∧
      (addLikeRecord h2 aid (addLikeRecord h1 aid st).snd).snd
        = (addLikeRecord h1 aid st).snd := by
  intro st s h1 h2 aid hres hmem
  have hmem2 : aid ∈ s ++ [aid] := List.mem_append_right s (by simp)
  simp [addLikeRecord, hres, hmem, hmem2]

/-- C8 amended, witness: liked-set `[3]` resident, article 5 not yet liked. -/
theorem addLikeRecord_idempotent_witness :
    (⟨some [3], 1800, [], [], [], []⟩ : LikeCacheState).likedSet = some [3] ∧
    (5 : Int) ∉ ([3] : List Int) ∧
    (addLikeRecord "h1" 5 ⟨some [3], 1800, [], [], [], []⟩).fst = .ok true ∧
    (addLikeRecord "h2" 5
      (addLikeRecord "h1" 5 ⟨some [3], 1800, [], [], [], []⟩).snd).fst
      = .ok false ∧
    (addLikeRecord "h2" 5
      (addLikeRecord "h1" 5 ⟨some [3], 1800, [], [], [], []⟩).snd).snd
      = (addLikeRecord "h1" 5 ⟨some [3], 1800, [], [], [], []⟩).snd :=
  ⟨rfl, by decide,
    (addLikeRecord_idempotent _ [3] "h1" "h2" 5 rfl (by decide)).1,
    (addLikeRecord_idempotent _ [3] "h1" "h2" 5 rfl (by decide)).2.1,
    (addLikeRecord_idempotent _ [3] "h1" "h2" 5 rfl (by decide)).2.2⟩

/-- C10: After `SetUserLikedArticles`, the user's liked-set key is present
and non-empty even for an empty ID list (the sentinel -1 is inserted), so a
retried `AddLikeRecord` or `DecrLikeRecord` for that user cannot signal the
distinguished cache-miss condition again, and the usecase's
hydrate-then-retry sequence terminates after one reload. -/
theorem setUserLikedArticles_sentinel :
    ∀ (st : LikeCacheState) (aids : List Int) (hb : String) (aid : Int),
      (∃ s, (setUserLikedArticles st aids).likedSet = some s ∧ s ≠ []) ∧
      (addLikeRecord hb aid (setUserLikedArticles st aids)).fst
        ≠ Except.error () ∧
      (decrLikeRecord hb aid (setUserLikedArticles st aids)).fst
        ≠ Except.error () := by
  intro st aids hb aid
  have hA : ∀ (xs acc : List Int), acc ≠ [] →
      xs.foldl (fun s a => if a ∈ s then s else s ++ [a]) acc ≠ [] := by
    intro xs
    induction xs with
    | nil => intro acc h; exact h
    | cons x xs ih =>
      intro acc h
      simp only [List.foldl_cons]
      apply ih
      by_cases hx : x ∈ acc
      · simpa [hx] using h
      · simp [hx]
  have hne : ∀ (xs acc : List Int), xs ≠ [] →
      xs.foldl (fun s a => if a ∈ s then s else s ++ [a]) acc ≠ [] := by
    intro xs acc h
    cases xs with
    | nil => exact absurd rfl h
    | cons x xs =>
      simp only [List.foldl_cons]
      apply hA
      by_cases hx : x ∈ acc
      · simpa [hx] using List.ne_nil_of_mem hx
      · simp [hx]
  have hmerged : ∃ M, (setUserLikedArticles st aids).likedSet = some M ∧ M ≠ [] := by
    refine ⟨_, rfl, ?_⟩
    apply hne
    by_cases h : aids.isEmpty
    · simp [h]
    · simp only [h, if_neg, Bool.false_eq_true, not_false_eq_true]
      simpa using h
  obtain ⟨M, hM, hMne⟩ := hmerged
  refine ⟨⟨M, hM, hMne⟩, ?_, ?_⟩
  · simp only [addLikeRecord, hM]
    split <;> simp
  · simp only [decrLikeRecord, hM]
    split <;> simp

/-- C6 counterexample: the key built as `"article:" + string(rune(id))` is
not distinct for every pair of distinct article IDs: Go converts every
invalid code point to U+FFFD, so the surrogate 55296 (0xD800) and 65533
(0xFFFD) produce the same key. -/
theorem flight_key_collision :
    articleFlightKey 55296 = articleFlightKey 65533 ∧
    rebuildFlightKey 55296 = rebuildFlightKey 65533 ∧
    (55296 : Int) ≠ 65533 := by
  refine ⟨?_, ?_, by decide⟩ <;> decide

/-- C6 amended: for article IDs that are valid Unicode scalar values, the
miss-path and rebuild single-flight keys are distinct for every pair of
distinct IDs; the miss-path key never equals a rebuild key; and both are
always distinct from the "home", "daily" and "history" keys, so rebuilds for
unrelated resources never share one in-flight execution. -/
theorem flight_key_partition :
    (∀ id1 id2 : Int, isValidScalar id1 = true → isValidScalar id2 = true →
      id1 ≠ id2 →
      articleFlightKey id1 ≠ articleFlightKey id2 ∧
      rebuildFlightKey id1 ≠ rebuildFlightKey id2) ∧
    (∀ id1 id2 : Int, articleFlightKey id1 ≠ rebuildFlightKey id2) ∧
    (∀ id : Int,
      articleFlightKey id ≠ goStr "home" ∧
      articleFlightKey id ≠ goStr "daily" ∧
      articleFlightKey id ≠ goStr "history" ∧
      rebuildFlightKey id ≠ goStr "home" ∧
      rebuildFlightKey id ≠ goStr "daily" ∧
      rebuildFlightKey id ≠ goStr "history") := by
  have hbounds : ∀ r : Int, isValidScalar r = true → 0 ≤ r ∧ r ≤ 0x10FFFF := by
    intro r h
    simp only [isValidScalar, Bool.or_eq_true, decide_eq_true_eq] at h
    omega
  have hwrap : ∀ id : Int, 0 ≤ id → id ≤ 0x10FFFF → runeOfInt64 id = id := by
    intro id h0 h1
    have : (id + 2 ^ 31) % 2 ^ 32 = id + 2 ^ 31 := by omega
    simp only [runeOfInt64, this]
    omega
  have hscalar : ∀ id : Int, isValidScalar id = true → goRuneScalar id = id.toNat := by
    intro id h
    obtain ⟨h0, h1⟩ := hbounds id h
    simp only [goRuneScalar, hwrap id h0 h1, h, if_pos]
  have hinj : ∀ id1 id2 : Int, isValidScalar id1 = true → isValidScalar id2 = true →
      id1 ≠ id2 → goRuneScalar id1 ≠ goRuneScalar id2 := by
    intro id1 id2 h1 h2 hne heq
    rw [hscalar id1 h1, hscalar id2 h2] at heq
    obtain ⟨h10, _⟩ := hbounds id1 h1
    obtain ⟨h20, _⟩ := hbounds id2 h2
    omega
  refine ⟨?_, ?_, ?_⟩
  · intro id1 id2 h1 h2 hne
    constructor <;>
    · intro heq
      simp only [articleFlightKey, rebuildFlightKey, List.append_right_inj,
        List.cons.injEq, and_true] at heq
      exact hinj id1 id2 h1 h2 hne heq
  · intro id1 id2 heq
    have h0 : (articleFlightKey id1).head? = (rebuildFlightKey id2).head? := by
      rw [heq]
    simp [articleFlightKey, rebuildFlightKey, goStr] at h0
  · intro id
    refine ⟨?_, ?_, ?_, ?_, ?_, ?_⟩ <;>
    · intro heq
      have := congrArg List.length heq
      simp [articleFlightKey, rebuildFlightKey, goStr] at this


/-- C6 amended, witness: IDs 97 and 98 are valid scalar values and produce
distinct keys. -/
theorem flight_key_partition_witness :
    isValidScalar 97 = true ∧ isValidScalar 98 = true ∧ (97 : Int) ≠ 98 ∧
    articleFlightKey 97 ≠ articleFlightKey 98 :=
  ⟨by decide, by decide, by decide,
    (flight_key_partition.1 97 98 (by decide) (by decide) (by decide)).1⟩

/-- C9: Rank hydration preserves the rank order of the (id, score) entries
(pointwise equal IDs at every position and unchanged length), every returned
entry's like count equals the rank entry's score, an ID whose full entity
was not hydrated is returned as the bare rank entry, and a failed batch
lookup returns the bare rank entries instead of an error. -/
theorem fillRankArticles_preserves_rank :
    (∀ (h : Except Unit (List Article)) (rank : List Article),
      (fillRankArticles h rank).length = rank.length) ∧
    (∀ (h : Except Unit (List Article)) (rank : List Article) (i : Nat),
      ((fillRankArticles h rank).get? i).map (fun a => a.ID)
        = (rank.get? i).map (fun a => a.ID)) ∧
    (∀ (h : Except Unit (List Article)) (rank : List Article) (i : Nat),
      ((fillRankArticles h rank).get? i).map (fun a => a.Likes)
        = (rank.get? i).map (fun a => a.Likes)) ∧
    (∀ (e : Unit) (rank : List Article), fillRankArticles (.error e) rank = rank) ∧
    (∀ (arts : List Article) (rank : List Article) (i : Nat) (r : Article),
      rank.get? i = some r → buildArticleMap arts r.ID = none →
      (fillRankArticles (.ok arts) rank).get? i = some r) := by
  have hid : ∀ (arts : List Article) (r : Article),
      (match buildArticleMap arts r.ID with
        | some fullArt => { fullArt with Likes := r.Likes }
        | none => r).ID = r.ID := by
    intro arts r
    cases hfind : buildArticleMap arts r.ID with
    | none => rfl
    | some fullArt =>
      have := List.find?_some hfind
      simp only [decide_eq_true_eq] at this
      simpa using this
  have hlikes : ∀ (arts : List Article) (r : Article),
      (match buildArticleMap arts r.ID with
        | some fullArt => { fullArt with Likes := r.Likes }
        | none => r).Likes = r.Likes := by
    intro arts r
    cases hfind : buildArticleMap arts r.ID with
    | none => rfl
    | some fullArt => rfl
  refine ⟨?_, ?_, ?_, ?_, ?_⟩
  · intro h rank
    by_cases hemp : rank.isEmpty <;> cases h <;>
      simp [fillRankArticles, hemp]
  · intro h rank i
    by_cases hemp : rank.isEmpty <;> cases h <;>
      simp only [fillRankArticles, hemp, if_pos, if_neg, Bool.false_eq_true,
        not_false_eq_true, List.get?_map]
    case neg.ok arts =>
      cases hr : rank.get? i with
      | none => rfl
      | some r => simp [hid arts r]
  · intro h rank i
    by_cases hemp : rank.isEmpty <;> cases h <;>
      simp only [fillRankArticles, hemp, if_pos, if_neg, Bool.false_eq_true,
        not_false_eq_true, List.get?_map]
    case neg.ok arts =>
      cases hr : rank.get? i with
      | none => rfl
      | some r => simp [hlikes arts r]
  · intro e rank
    by_cases hemp : rank.isEmpty <;> simp [fillRankArticles, hemp]
  · intro arts rank i r hr hfind
    have hemp : rank.isEmpty = false := by
      cases rank with
      | nil => simp at hr
      | cons x xs => rfl
    have hmap : (fillRankArticles (.ok arts) rank).get? i
        = (rank.get? i).map (fun rankArt =>
            match buildArticleMap arts rankArt.ID with
            | some fullArt => { fullArt with Likes := rankArt.Likes }
            | none => rankArt) := by
      simp [fillRankArticles, hemp, List.get?_map]
    rw [hmap, hr]
    simp [hfind]

/-- C9 witness: a two-entry rank where article 5 hydrates (its like count is
taken from the rank score 50, not the hydrated value 2) and article 6 does
not hydrate and is returned as the bare rank entry. -/
theorem fillRankArticles_preserves_rank_witness :
    ([⟨5, "", ⟨0, ""⟩, 0, 50⟩, ⟨6, "", ⟨0, ""⟩, 0, 60⟩] : List Article).get? 1
        = some ⟨6, "", ⟨0, ""⟩, 0, 60⟩ ∧
    buildArticleMap [⟨5, "a", ⟨1, "u"⟩, 7, 2⟩] (6 : Int) = none ∧
    (fillRankArticles (.ok [⟨5, "a", ⟨1, "u"⟩, 7, 2⟩])
        [⟨5, "", ⟨0, ""⟩, 0, 50⟩, ⟨6, "", ⟨0, ""⟩, 0, 60⟩]).get? 1
      = some ⟨6, "", ⟨0, ""⟩, 0, 60⟩ :=
  ⟨rfl, by decide,
    fillRankArticles_preserves_rank.2.2.2.2 [⟨5, "a", ⟨1, "u"⟩, 7, 2⟩]
      [⟨5, "", ⟨0, ""⟩, 0, 50⟩, ⟨6, "", ⟨0, ""⟩, 0, 60⟩] 1 ⟨6, "", ⟨0, ""⟩, 0, 60⟩
      rfl (by decide)⟩

end Blog
